import Mathlib

/-!
Shallow embedding of the draw-call scheduling and rasterization core of
`src/Device/Renderer.cpp` (SwiftShader), together with theorems checking the
specification's claims about it.

Conventions of the embedding:
* machine integers (`unsigned int`, `int`) are modelled as `Nat` / `Int`;
* the floating-point coordinate arithmetic of the setup paths is modelled by
  exact rationals (`ℚ`), and the IEEE sign bit of a clip-space `w` value is
  carried as an explicit `Bool` field of the vertex;
* external collaborators that are not part of `Renderer.cpp` (the clipper, the
  compiled vertex/setup/pixel routines, the C `sqrt` routine and the marl
  ticket queue) appear as abstract parameters or, where noted, are modelled
  from the specification's description.
-/

namespace SwRenderer

/-- Primitive topologies handled by `setBatchIndices` (Renderer.cpp:55-138).
The `default` branch of the C++ switch (`ASSERT(false)`) corresponds to the
remaining `VkPrimitiveTopology` values, which are unreachable for a validated
pipeline and are not part of this model. -/
inductive VkPrimitiveTopology
  | pointList
  | lineList
  | lineStrip
  | triangleList
  | triangleStrip
  | triangleFan
deriving DecidableEq, Repr

/-- Provoking-vertex convention (`VkProvokingVertexModeEXT`). -/
inductive VkProvokingVertexMode
  | firstVertex
  | lastVertex
deriving DecidableEq, Repr

/-- Polygon modes reachable in `Renderer::draw` (Renderer.cpp:348-364); any
other mode hits `UNSUPPORTED`, an unrecoverable configuration fault. -/
inductive VkPolygonMode
  | fill
  | line
  | point
deriving DecidableEq, Repr

/-- `provokeFirst = (provokingVertexMode == VK_PROVOKING_VERTEX_MODE_FIRST_VERTEX_EXT)`
(Renderer.cpp:53). -/
def provokeFirstOf : VkProvokingVertexMode → Bool
  | .firstVertex => true
  | .lastVertex => false

/-- `MaxBatchSize`: the fixed SIMD batch width.  The declaration lives in
`Renderer.hpp` (outside `src/`); the value `128` is pinned by the
`unsigned int batch[128][3]` parameter type of `setBatchIndices`
(Renderer.cpp:51). -/
def MaxBatchSize : Nat := 128

/-- `MaxClusterCount`: number of screen-space clusters, declared in
`Renderer.hpp` (outside `src/`).  None of the verified claims depends on its
exact value. -/
def MaxClusterCount : Nat := 16

/-- Loop of the `VK_PRIMITIVE_TOPOLOGY_POINT_LIST` case of `setBatchIndices`
(Renderer.cpp:59-64): points are written contiguously
(`*pointBatch++ = indices[index++]`). -/
def pointListLoop (indices : Nat → Nat) : Nat → Nat → List Nat
  | _, 0 => []
  | index, n + 1 => indices index :: pointListLoop indices (index + 1) n

/-- Loop of the `VK_PRIMITIVE_TOPOLOGY_LINE_LIST` case (Renderer.cpp:76-84);
`index` starts at `2 * start` and advances by 2. -/
def lineListLoop (provokeFirst : Bool) (indices : Nat → Nat) :
    Nat → Nat → List (Nat × Nat × Nat)
  | _, 0 => []
  | index, n + 1 =>
      (indices (index + if provokeFirst then 0 else 1),
       indices (index + if provokeFirst then 1 else 0),
       indices (index + 1)) :: lineListLoop provokeFirst indices (index + 2) n

/-- Loop of the `VK_PRIMITIVE_TOPOLOGY_LINE_STRIP` case (Renderer.cpp:89-97);
`index` starts at `start` and advances by 1. -/
def lineStripLoop (provokeFirst : Bool) (indices : Nat → Nat) :
    Nat → Nat → List (Nat × Nat × Nat)
  | _, 0 => []
  | index, n + 1 =>
      (indices (index + if provokeFirst then 0 else 1),
       indices (index + if provokeFirst then 1 else 0),
       indices (index + 1)) :: lineStripLoop provokeFirst indices (index + 1) n

/-- Loop of the `VK_PRIMITIVE_TOPOLOGY_TRIANGLE_LIST` case (Renderer.cpp:102-110);
`index` starts at `3 * start` and advances by 3. -/
def triangleListLoop (provokeFirst : Bool) (indices : Nat → Nat) :
    Nat → Nat → List (Nat × Nat × Nat)
  | _, 0 => []
  | index, n + 1 =>
      (indices (index + if provokeFirst then 0 else 2),
       indices (index + if provokeFirst then 1 else 0),
       indices (index + if provokeFirst then 2 else 1)) ::
        triangleListLoop provokeFirst indices (index + 3) n

/-- Loop of the `VK_PRIMITIVE_TOPOLOGY_TRIANGLE_STRIP` case (Renderer.cpp:115-123).
The loop counter `i` and the running `index` (which starts at `start`) are both
carried, matching the source's use of `(start + i) & 1` and `~(start + i) & 1`
(the low bit and its complement, i.e. `(start+i) % 2` and `1 - (start+i) % 2`). -/
def triangleStripLoop (provokeFirst : Bool) (indices : Nat → Nat) (start : Nat) :
    Nat → Nat → Nat → List (Nat × Nat × Nat)
  | _, _, 0 => []
  | i, index, n + 1 =>
      (indices (index + if provokeFirst then 0 else 2),
       indices (index + (start + i) % 2 + if provokeFirst then 1 else 0),
       indices (index + (1 - (start + i) % 2) + if provokeFirst then 1 else 0)) ::
        triangleStripLoop provokeFirst indices start (i + 1) (index + 1) n

/-- Loop of the `VK_PRIMITIVE_TOPOLOGY_TRIANGLE_FAN` case (Renderer.cpp:128-136);
`index` starts at `start + 1`.  The source writes through computed slot
positions (`batch[i][provokeFirst ? 0 : 2] = indices[index]`, etc.); the two
branches below list the resulting slot contents for each convention. -/
def triangleFanLoop (provokeFirst : Bool) (indices : Nat → Nat) :
    Nat → Nat → List (Nat × Nat × Nat)
  | _, 0 => []
  | index, n + 1 =>
      (if provokeFirst then (indices index, indices (index + 1), indices 0)
       else (indices (index + 1), indices 0, indices index)) ::
        triangleFanLoop provokeFirst indices (index + 1) n

/-- Final contents of the `batch` output array of `setBatchIndices`: triangle
and line topologies fill three-slot rows, the point topology fills the array
contiguously (`auto pointBatch = &(batch[0][0])`, Renderer.cpp:60). -/
inductive BatchOut
  | rows (rs : List (Nat × Nat × Nat))
  | flat (xs : List Nat)
deriving DecidableEq, Repr

def BatchOut.rowsOf : BatchOut → List (Nat × Nat × Nat)
  | .rows rs => rs
  | .flat _ => []

def BatchOut.flatOf : BatchOut → List Nat
  | .flat xs => xs
  | .rows _ => []

/-- Read a three-slot row of the batch array (out-of-range reads, which the
source never performs on the modelled inputs, default to `(0,0,0)`). -/
def rowAt (rs : List (Nat × Nat × Nat)) (i : Nat) : Nat × Nat × Nat :=
  rs.getD i (0, 0, 0)

/-- Read one flat entry of the batch array. -/
def entryAt (xs : List Nat) (i : Nat) : Nat :=
  xs.getD i 0

/-- `setBatchIndices` (Renderer.cpp:51-145): per-topology primitive index
assembly.  The point case repeats the last written index three more times
("Repeat the last index to allow for SIMD width overrun", Renderer.cpp:66-71);
in the source `index--` after the loop leaves `index = start + triangleCount - 1`
(the subtraction is the C unsigned decrement; all callers have
`triangleCount >= 1`). -/
def setBatchIndices (topology : VkPrimitiveTopology)
    (provokingVertexMode : VkProvokingVertexMode) (indices : Nat → Nat)
    (start triangleCount : Nat) : BatchOut :=
  let provokeFirst := provokeFirstOf provokingVertexMode
  match topology with
  | .pointList =>
      .flat (pointListLoop indices start triangleCount ++
        List.replicate 3 (indices (start + triangleCount - 1)))
  | .lineList => .rows (lineListLoop provokeFirst indices (2 * start) triangleCount)
  | .lineStrip => .rows (lineStripLoop provokeFirst indices start triangleCount)
  | .triangleList => .rows (triangleListLoop provokeFirst indices (3 * start) triangleCount)
  | .triangleStrip => .rows (triangleStripLoop provokeFirst indices start 0 start triangleCount)
  | .triangleFan => .rows (triangleFanLoop provokeFirst indices (start + 1) triangleCount)

/-- `DrawCall::processPrimitiveVertices` (Renderer.cpp:671-729).  The index
source is `LinearIndex` (the identity) when no index buffer is bound, and the
8/16/32-bit cases differ only in how storage is read, which the abstract index
function absorbs.  For every non-point topology the last row is duplicated into
row `triangleCount` ("Repeat the last index to allow for SIMD width overrun",
Renderer.cpp:724-727). -/
def processPrimitiveVertices (topology : VkPrimitiveTopology)
    (provokingVertexMode : VkProvokingVertexMode)
    (primitiveIndices : Option (Nat → Nat)) (start triangleCount : Nat) : BatchOut :=
  let indices := primitiveIndices.getD (fun i => i)
  let out := setBatchIndices topology provokingVertexMode indices start triangleCount
  if topology = .pointList then out
  else
    match out with
    | .rows rs =>
        let last := (rowAt rs (triangleCount - 1)).2.2
        .rows (rs ++ [(last, last, last)])
    | .flat xs => .flat xs

/-! Generic facts about the single-index assembly loops: every loop of
`setBatchIndices` produces one row per primitive and its row `i` is its body
evaluated at the `i`-times advanced index. -/

lemma loopLength {α : Type} (g : Nat → α) (step : Nat) (L : Nat → Nat → List α)
    (h0 : ∀ idx, L idx 0 = [])
    (hs : ∀ idx n, L idx (n + 1) = g idx :: L (idx + step) n) :
    ∀ n idx, (L idx n).length = n := by
  intro n
  induction n with
  | zero => intro idx; rw [h0]; rfl
  | succ n ih => intro idx; rw [hs]; simp [ih]

lemma loopRowAt (g : Nat → Nat × Nat × Nat) (step : Nat)
    (L : Nat → Nat → List (Nat × Nat × Nat))
    (hs : ∀ idx n, L idx (n + 1) = g idx :: L (idx + step) n) :
    ∀ n idx i, i < n → rowAt (L idx n) i = g (idx + step * i) := by
  intro n
  induction n with
  | zero => intro idx i hi; omega
  | succ n ih =>
      intro idx i hi
      rw [hs]
      cases i with
      | zero => simp [rowAt]
      | succ i =>
          have h := ih (idx + step) i (by omega)
          simp only [rowAt, List.getD_cons_succ] at h ⊢
          rw [h]
          congr 1
          ring

lemma loopLength2 {α : Type} (g : Nat → Nat → α) (L : Nat → Nat → Nat → List α)
    (h0 : ∀ i idx, L i idx 0 = [])
    (hs : ∀ i idx n, L i idx (n + 1) = g i idx :: L (i + 1) (idx + 1) n) :
    ∀ n i idx, (L i idx n).length = n := by
  intro n
  induction n with
  | zero => intro i idx; rw [h0]; rfl
  | succ n ih => intro i idx; rw [hs]; simp [ih]

lemma loopRowAt2 (g : Nat → Nat → Nat × Nat × Nat)
    (L : Nat → Nat → Nat → List (Nat × Nat × Nat))
    (hs : ∀ i idx n, L i idx (n + 1) = g i idx :: L (i + 1) (idx + 1) n) :
    ∀ n i idx j, j < n → rowAt (L i idx n) j = g (i + j) (idx + j) := by
  intro n
  induction n with
  | zero => intro i idx j hj; omega
  | succ n ih =>
      intro i idx j hj
      rw [hs]
      cases j with
      | zero => simp [rowAt]
      | succ j =>
          have h := ih (i + 1) (idx + 1) j (by omega)
          simp only [rowAt, List.getD_cons_succ] at h ⊢
          rw [h]
          congr 1 <;> omega

lemma pointListLoop_length (I : Nat → Nat) : ∀ n idx, (pointListLoop I idx n).length = n :=
  fun n => loopLength (fun idx => I idx) 1 (pointListLoop I) (fun _ => rfl) (fun _ _ => rfl) n

lemma pointListLoop_entryAt (I : Nat → Nat) :
    ∀ n idx i, i < n → entryAt (pointListLoop I idx n) i = I (idx + i) := by
  intro n
  induction n with
  | zero => intro idx i hi; omega
  | succ n ih =>
      intro idx i hi
      cases i with
      | zero => simp [pointListLoop, entryAt]
      | succ i =>
          have h := ih (idx + 1) i (by omega)
          simp only [entryAt, pointListLoop, List.getD_cons_succ] at h ⊢
          rw [h]
          congr 1
          omega

lemma lineListLoop_length (pf : Bool) (I : Nat → Nat) (n idx : Nat) :
    (lineListLoop pf I idx n).length = n :=
  loopLength _ 2 (lineListLoop pf I) (fun _ => rfl) (fun _ _ => rfl) n idx

lemma lineListLoop_rowAt (pf : Bool) (I : Nat → Nat) (n idx i : Nat) (h : i < n) :
    rowAt (lineListLoop pf I idx n) i =
      (I (idx + 2 * i + if pf then 0 else 1),
       I (idx + 2 * i + if pf then 1 else 0),
       I (idx + 2 * i + 1)) :=
  loopRowAt (fun idx => (I (idx + if pf then 0 else 1), I (idx + if pf then 1 else 0),
    I (idx + 1))) 2 (lineListLoop pf I) (fun _ _ => rfl) n idx i h

lemma lineStripLoop_length (pf : Bool) (I : Nat → Nat) (n idx : Nat) :
    (lineStripLoop pf I idx n).length = n :=
  loopLength _ 1 (lineStripLoop pf I) (fun _ => rfl) (fun _ _ => rfl) n idx

lemma lineStripLoop_rowAt (pf : Bool) (I : Nat → Nat) (n idx i : Nat) (h : i < n) :
    rowAt (lineStripLoop pf I idx n) i =
      (I (idx + i + if pf then 0 else 1),
       I (idx + i + if pf then 1 else 0),
       I (idx + i + 1)) := by
  have h2 := loopRowAt (fun idx => (I (idx + if pf then 0 else 1),
    I (idx + if pf then 1 else 0), I (idx + 1))) 1 (lineStripLoop pf I)
    (fun _ _ => rfl) n idx i h
  simpa using h2

lemma triangleListLoop_length (pf : Bool) (I : Nat → Nat) (n idx : Nat) :
    (triangleListLoop pf I idx n).length = n :=
  loopLength _ 3 (triangleListLoop pf I) (fun _ => rfl) (fun _ _ => rfl) n idx

lemma triangleListLoop_rowAt (pf : Bool) (I : Nat → Nat) (n idx i : Nat) (h : i < n) :
    rowAt (triangleListLoop pf I idx n) i =
      (I (idx + 3 * i + if pf then 0 else 2),
       I (idx + 3 * i + if pf then 1 else 0),
       I (idx + 3 * i + if pf then 2 else 1)) :=
  loopRowAt (fun idx => (I (idx + if pf then 0 else 2), I (idx + if pf then 1 else 0),
    I (idx + if pf then 2 else 1))) 3 (triangleListLoop pf I) (fun _ _ => rfl) n idx i h

lemma triangleStripLoop_length (pf : Bool) (I : Nat → Nat) (s n i idx : Nat) :
    (triangleStripLoop pf I s i idx n).length = n :=
  loopLength2 _ (triangleStripLoop pf I s) (fun _ _ => rfl) (fun _ _ _ => rfl) n i idx

lemma triangleStripLoop_rowAt (pf : Bool) (I : Nat → Nat) (s n i idx j : Nat) (h : j < n) :
    rowAt (triangleStripLoop pf I s i idx n) j =
      (I (idx + j + if pf then 0 else 2),
       I (idx + j + (s + (i + j)) % 2 + if pf then 1 else 0),
       I (idx + j + (1 - (s + (i + j)) % 2) + if pf then 1 else 0)) :=
  loopRowAt2 (fun i idx => (I (idx + if pf then 0 else 2),
    I (idx + (s + i) % 2 + if pf then 1 else 0),
    I (idx + (1 - (s + i) % 2) + if pf then 1 else 0)))
    (triangleStripLoop pf I s) (fun _ _ _ => rfl) n i idx j h

lemma triangleFanLoop_length (pf : Bool) (I : Nat → Nat) (n idx : Nat) :
    (triangleFanLoop pf I idx n).length = n :=
  loopLength _ 1 (triangleFanLoop pf I) (fun _ => rfl) (fun _ _ => rfl) n idx

lemma triangleFanLoop_rowAt (pf : Bool) (I : Nat → Nat) (n idx i : Nat) (h : i < n) :
    rowAt (triangleFanLoop pf I idx n) i =
      if pf then (I (idx + i), I (idx + i + 1), I 0)
      else (I (idx + i + 1), I 0, I (idx + i)) := by
  have h2 := loopRowAt (fun idx => if pf then (I idx, I (idx + 1), I 0)
    else (I (idx + 1), I 0, I idx)) 1 (triangleFanLoop pf I) (fun _ _ => rfl) n idx i h
  simpa using h2

lemma rowsOf_rows (rs : List (Nat × Nat × Nat)) : (BatchOut.rows rs).rowsOf = rs := rfl

lemma flatOf_flat (xs : List Nat) : (BatchOut.flat xs).flatOf = xs := rfl

lemma tripleCongrArg (f : Nat → Nat) (a b c d e g : Nat)
    (h1 : a = d) (h2 : b = e) (h3 : c = g) :
    (f a, f b, f c) = (f d, f e, f g) := by
  rw [h1, h2, h3]

lemma setBatchIndices_rowsOf_length (t : VkPrimitiveTopology) (pm : VkProvokingVertexMode)
    (I : Nat → Nat) (s n : Nat) (ht : t ≠ .pointList) :
    (setBatchIndices t pm I s n).rowsOf.length = n := by
  cases t with
  | pointList => exact absurd rfl ht
  | lineList => exact lineListLoop_length (provokeFirstOf pm) I n (2 * s)
  | lineStrip => exact lineStripLoop_length (provokeFirstOf pm) I n s
  | triangleList => exact triangleListLoop_length (provokeFirstOf pm) I n (3 * s)
  | triangleStrip => exact triangleStripLoop_length (provokeFirstOf pm) I s n 0 s
  | triangleFan => exact triangleFanLoop_length (provokeFirstOf pm) I n (s + 1)

lemma processPrimitiveVertices_rows (t : VkPrimitiveTopology) (pm : VkProvokingVertexMode)
    (oI : Option (Nat → Nat)) (s n : Nat) (ht : t ≠ .pointList) :
    processPrimitiveVertices t pm oI s n =
      .rows ((setBatchIndices t pm (oI.getD (fun i => i)) s n).rowsOf ++
        [((rowAt (setBatchIndices t pm (oI.getD (fun i => i)) s n).rowsOf (n - 1)).2.2,
          (rowAt (setBatchIndices t pm (oI.getD (fun i => i)) s n).rowsOf (n - 1)).2.2,
          (rowAt (setBatchIndices t pm (oI.getD (fun i => i)) s n).rowsOf (n - 1)).2.2)]) := by
  cases t with
  | pointList => exact absurd rfl ht
  | lineList => rfl
  | lineStrip => rfl
  | triangleList => rfl
  | triangleStrip => rfl
  | triangleFan => rfl

lemma processPrimitiveVertices_point (pm : VkProvokingVertexMode)
    (oI : Option (Nat → Nat)) (s n : Nat) :
    processPrimitiveVertices .pointList pm oI s n =
      .flat (pointListLoop (oI.getD (fun i => i)) s n ++
        List.replicate 3 ((oI.getD (fun i => i)) (s + n - 1))) := rfl

/-- C3: for every start offset `s`, primitive count `n ≥ 1`, provoking-vertex
convention and index source `I`, `setBatchIndices` produces for each primitive
`i < n` exactly the reference indices of its topology: TRIANGLE_LIST uses the
raw indices `3(s+i)`, `3(s+i)+1`, `3(s+i)+2` with the provoking vertex (first
or last, per the convention) in slot 0; TRIANGLE_STRIP primitive `i` uses
`s+i`, `s+i+1+p`, `s+i+2-p` with `p = (s+i) mod 2`, under the same
provoking-vertex placement; TRIANGLE_FAN uses `s+i+1`, `s+i+2` and index `0`
in the slots fixed by the convention; LINE_LIST uses `2(s+i)`, `2(s+i)+1` and
LINE_STRIP uses `s+i`, `s+i+1` with the provoking endpoint in slot 0 (the
third slot holding the second endpoint again); POINT_LIST uses `s+i`, packed
contiguously.  The stated tuples are the exact slot layout the source writes,
which places the provoking vertex in slot 0 and the remaining vertices in
cyclic order. -/
theorem setBatchIndices_matches_reference (pm : VkProvokingVertexMode) (I : Nat → Nat)
    (s n i : Nat) (hn : 1 ≤ n) (hi : i < n) :
    (rowAt (setBatchIndices .triangleList pm I s n).rowsOf i =
      (match pm with
       | .firstVertex => (I (3 * (s + i)), I (3 * (s + i) + 1), I (3 * (s + i) + 2))
       | .lastVertex => (I (3 * (s + i) + 2), I (3 * (s + i)), I (3 * (s + i) + 1)))) ∧
    (rowAt (setBatchIndices .triangleStrip pm I s n).rowsOf i =
      (match pm with
       | .firstVertex =>
           (I (s + i), I (s + i + 1 + (s + i) % 2), I (s + i + 2 - (s + i) % 2))
       | .lastVertex =>
           (I (s + i + 2), I (s + i + (s + i) % 2), I (s + i + 1 - (s + i) % 2)))) ∧
    (rowAt (setBatchIndices .triangleFan pm I s n).rowsOf i =
      (match pm with
       | .firstVertex => (I (s + i + 1), I (s + i + 2), I 0)
       | .lastVertex => (I (s + i + 2), I 0, I (s + i + 1)))) ∧
    (rowAt (setBatchIndices .lineList pm I s n).rowsOf i =
      (match pm with
       | .firstVertex => (I (2 * (s + i)), I (2 * (s + i) + 1), I (2 * (s + i) + 1))
       | .lastVertex => (I (2 * (s + i) + 1), I (2 * (s + i)), I (2 * (s + i) + 1)))) ∧
    (rowAt (setBatchIndices .lineStrip pm I s n).rowsOf i =
      (match pm with
       | .firstVertex => (I (s + i), I (s + i + 1), I (s + i + 1))
       | .lastVertex => (I (s + i + 1), I (s + i), I (s + i + 1)))) ∧
    (entryAt (setBatchIndices .pointList pm I s n).flatOf i = I (s + i)) := by
  have hpoint : entryAt (setBatchIndices .pointList pm I s n).flatOf i = I (s + i) := by
    show entryAt (pointListLoop I s n ++ _) i = _
    have hlen : i < (pointListLoop I s n).length := by rw [pointListLoop_length]; exact hi
    have := pointListLoop_entryAt I n s i hi
    simp only [entryAt] at this ⊢
    rw [List.getD_append _ _ _ _ hlen]
    exact this
  cases pm with
  | firstVertex =>
      refine ⟨?_, ?_, ?_, ?_, ?_, hpoint⟩
      · show rowAt (triangleListLoop true I (3 * s) n) i = _
        rw [triangleListLoop_rowAt true I n (3 * s) i hi]
        exact tripleCongrArg I (3 * s + 3 * i + 0) (3 * s + 3 * i + 1) (3 * s + 3 * i + 2)
          (3 * (s + i)) (3 * (s + i) + 1) (3 * (s + i) + 2)
          (by omega) (by omega) (by omega)
      · show rowAt (triangleStripLoop true I s 0 s n) i = _
        rw [triangleStripLoop_rowAt true I s n 0 s i hi]
        simp only [Nat.zero_add]
        exact tripleCongrArg I (s + i + 0) (s + i + (s + i) % 2 + 1)
          (s + i + (1 - (s + i) % 2) + 1)
          (s + i) (s + i + 1 + (s + i) % 2) (s + i + 2 - (s + i) % 2)
          (by omega) (by omega) (by omega)
      · show rowAt (triangleFanLoop true I (s + 1) n) i = _
        rw [triangleFanLoop_rowAt true I n (s + 1) i hi]
        exact tripleCongrArg I (s + 1 + i) (s + 1 + i + 1) 0
          (s + i + 1) (s + i + 2) 0
          (by omega) (by omega) rfl
      · show rowAt (lineListLoop true I (2 * s) n) i = _
        rw [lineListLoop_rowAt true I n (2 * s) i hi]
        exact tripleCongrArg I (2 * s + 2 * i + 0) (2 * s + 2 * i + 1) (2 * s + 2 * i + 1)
          (2 * (s + i)) (2 * (s + i) + 1) (2 * (s + i) + 1)
          (by omega) (by omega) (by omega)
      · show rowAt (lineStripLoop true I s n) i = _
        rw [lineStripLoop_rowAt true I n s i hi]
        exact tripleCongrArg I (s + i + 0) (s + i + 1) (s + i + 1)
          (s + i) (s + i + 1) (s + i + 1)
          (by omega) rfl rfl
  | lastVertex =>
      refine ⟨?_, ?_, ?_, ?_, ?_, hpoint⟩
      · show rowAt (triangleListLoop false I (3 * s) n) i = _
        rw [triangleListLoop_rowAt false I n (3 * s) i hi]
        exact tripleCongrArg I (3 * s + 3 * i + 2) (3 * s + 3 * i + 0) (3 * s + 3 * i + 1)
          (3 * (s + i) + 2) (3 * (s + i)) (3 * (s + i) + 1)
          (by omega) (by omega) (by omega)
      · show rowAt (triangleStripLoop false I s 0 s n) i = _
        rw [triangleStripLoop_rowAt false I s n 0 s i hi]
        simp only [Nat.zero_add]
        exact tripleCongrArg I (s + i + 2) (s + i + (s + i) % 2 + 0)
          (s + i + (1 - (s + i) % 2) + 0)
          (s + i + 2) (s + i + (s + i) % 2) (s + i + 1 - (s + i) % 2)
          rfl (by omega) (by omega)
      · show rowAt (triangleFanLoop false I (s + 1) n) i = _
        rw [triangleFanLoop_rowAt false I n (s + 1) i hi]
        exact tripleCongrArg I (s + 1 + i + 1) 0 (s + 1 + i)
          (s + i + 2) 0 (s + i + 1)
          (by omega) rfl (by omega)
      · show rowAt (lineListLoop false I (2 * s) n) i = _
        rw [lineListLoop_rowAt false I n (2 * s) i hi]
        exact tripleCongrArg I (2 * s + 2 * i + 1) (2 * s + 2 * i + 0) (2 * s + 2 * i + 1)
          (2 * (s + i) + 1) (2 * (s + i)) (2 * (s + i) + 1)
          (by omega) (by omega) (by omega)
      · show rowAt (lineStripLoop false I s n) i = _
        rw [lineStripLoop_rowAt false I n s i hi]
        exact tripleCongrArg I (s + i + 1) (s + i + 0) (s + i + 1)
          (s + i + 1) (s + i) (s + i + 1)
          rfl (by omega) rfl

/-- Witness for C3 at concrete inputs (identity index source, start 5,
count 1, primitive 0). -/
theorem setBatchIndices_matches_reference_witness :
    1 ≤ 1 ∧ 0 < 1 ∧
    entryAt (setBatchIndices .pointList .firstVertex (fun k => k) 5 1).flatOf 0 = 5 ∧
    rowAt (setBatchIndices .triangleList .firstVertex (fun k => k) 5 1).rowsOf 0 = (15, 16, 17) := by
  have h := setBatchIndices_matches_reference .firstVertex (fun k => k) 5 1 0
    (by decide) (by decide)
  exact ⟨by decide, by decide, by simpa using h.2.2.2.2.2, by simpa using h.1⟩

/-- C4: after index assembly (`processPrimitiveVertices`), the overrun slots
past the logical end are initialized by duplicating the last real index: for
triangle and line topologies all three entries of output row `n` equal the
last primitive's last assembled index (row `n-1`, slot 2); for the point
topology the three packed slots immediately after the `n`-th point each equal
the last point's index. -/
theorem processPrimitiveVertices_overrun (t : VkPrimitiveTopology)
    (pm : VkProvokingVertexMode) (oI : Option (Nat → Nat)) (s n : Nat) (hn : 1 ≤ n) :
    (t ≠ .pointList →
      (processPrimitiveVertices t pm oI s n).rowsOf.length = n + 1 ∧
      rowAt (processPrimitiveVertices t pm oI s n).rowsOf n =
        ((rowAt (processPrimitiveVertices t pm oI s n).rowsOf (n - 1)).2.2,
         (rowAt (processPrimitiveVertices t pm oI s n).rowsOf (n - 1)).2.2,
         (rowAt (processPrimitiveVertices t pm oI s n).rowsOf (n - 1)).2.2)) ∧
    (t = .pointList →
      (processPrimitiveVertices t pm oI s n).flatOf.length = n + 3 ∧
      entryAt (processPrimitiveVertices t pm oI s n).flatOf n =
        entryAt (processPrimitiveVertices t pm oI s n).flatOf (n - 1) ∧
      entryAt (processPrimitiveVertices t pm oI s n).flatOf (n + 1) =
        entryAt (processPrimitiveVertices t pm oI s n).flatOf (n - 1) ∧
      entryAt (processPrimitiveVertices t pm oI s n).flatOf (n + 2) =
        entryAt (processPrimitiveVertices t pm oI s n).flatOf (n - 1)) := by
  constructor
  · intro ht
    rw [processPrimitiveVertices_rows t pm oI s n ht]
    have hlen : (setBatchIndices t pm (oI.getD (fun i => i)) s n).rowsOf.length = n :=
      setBatchIndices_rowsOf_length t pm _ s n ht
    rw [rowsOf_rows]
    set rs := (setBatchIndices t pm (oI.getD (fun i => i)) s n).rowsOf with hrs
    set x := (rowAt rs (n - 1)).2.2 with hx
    have h1 : rowAt (rs ++ [(x, x, x)]) n = (x, x, x) := by
      simp only [rowAt]
      rw [List.getD_append_right _ _ _ _ (by omega)]
      rw [hlen]
      simp
    have h2 : rowAt (rs ++ [(x, x, x)]) (n - 1) = rowAt rs (n - 1) := by
      simp only [rowAt]
      rw [List.getD_append _ _ _ _ (by omega)]
    refine ⟨by simp [hlen], ?_⟩
    rw [h1, h2, ← hx]
  · intro ht
    subst ht
    rw [processPrimitiveVertices_point pm oI s n]
    set I := oI.getD (fun i => i) with hI
    have hlen : (pointListLoop I s n).length = n := pointListLoop_length I n s
    have hlast : entryAt (pointListLoop I s n ++ List.replicate 3 (I (s + n - 1))) (n - 1) =
        I (s + n - 1) := by
      simp only [entryAt]
      rw [List.getD_append _ _ _ _ (by omega)]
      have h := pointListLoop_entryAt I n s (n - 1) (by omega)
      simp only [entryAt] at h
      rw [h]
      congr 1
      omega
    have hover : ∀ j, n ≤ j → j < n + 3 →
        entryAt (pointListLoop I s n ++ List.replicate 3 (I (s + n - 1))) j =
          I (s + n - 1) := by
      intro j hj1 hj2
      simp only [entryAt]
      rw [List.getD_append_right _ _ _ _ (by omega)]
      rw [hlen]
      have hj3 : j - n < 3 := by omega
      interval_cases h : j - n <;> rfl
    rw [flatOf_flat]
    refine ⟨by simp [hlen], ?_, ?_, ?_⟩
    · rw [hlast, hover n (by omega) (by omega)]
    · rw [hlast, hover (n + 1) (by omega) (by omega)]
    · rw [hlast, hover (n + 2) (by omega) (by omega)]

/-- Witness for C4 at concrete inputs (line list without index buffer, start 0,
count 2; and point list, count 2). -/
theorem processPrimitiveVertices_overrun_witness :
    ((VkPrimitiveTopology.lineList ≠ .pointList) ∧
      rowAt (processPrimitiveVertices .lineList .firstVertex none 0 2).rowsOf 2 = (3, 3, 3)) ∧
    entryAt (processPrimitiveVertices .pointList .firstVertex none 0 2).flatOf 4 = 1 := by
  have hl := (processPrimitiveVertices_overrun .lineList .firstVertex none 0 2 (by decide)).1
    (by decide)
  have hp := (processPrimitiveVertices_overrun .pointList .firstVertex none 0 2 (by decide)).2
    rfl
  refine ⟨⟨by decide, ?_⟩, ?_⟩
  · rw [hl.2]
    decide
  · have h4 := hp.2.2.2
    norm_num at h4
    rw [h4]
    decide

/-! Geometry model for the line and wireframe setup paths.  Floating-point
arithmetic is modelled exactly over `ℚ`; the IEEE sign bit of a stored `w`
is an explicit field. -/

/-- `vk::SUBPIXEL_PRECISION_FACTOR` (declared in `Vulkan/VkConfig.hpp`,
outside `src/`); only its nonzero-ness matters to the verified claims. -/
def subPixF : ℚ := 16

/-- `sw::float4` (four-component vector). -/
structure float4 where
  x : ℚ
  y : ℚ
  z : ℚ
  w : ℚ
deriving Repr

/-- The fields of `sw::Vertex` consulted by the setup paths: post-transform
`position` (clip space), the per-sample `cullMask`, the point size, and the
projected fixed-point screen coordinates `projected.x/y` (integers in the
source, cast to float—here to `ℚ`—by `setupWireframeTriangles`).  `wSign` is
the IEEE sign bit of the stored clip-space `w` (`bit_cast<int>(v.w) < 0`),
which exact rationals do not carry (e.g. for negative zero), so it is kept
explicitly. -/
structure Vertex where
  position : float4 := ⟨0, 0, 0, 1⟩
  pointSize : ℚ := 1
  cullMask : Nat := 0
  clipFlags : Nat := 0
  projX : Int := 0
  projY : Int := 0
  wSign : Bool := false
deriving Repr

/-- `sw::Triangle`: up to three vertices (lines/points use fewer). -/
structure Triangle where
  v0 : Vertex
  v1 : Vertex
  v2 : Vertex
deriving Repr

/-- The per-draw state consulted by `setupLine` / `setupWireframeTriangles`:
`DrawCall`/`DrawData` fields (`lineWidth`, the viewport scale constants
`WxF`/`HxF`, `lineRasterizationMode` as the flag `bresenham`,
`depthClipEnable`) and `SetupProcessor::State` fields (`frontFace` as
`frontFaceCCW`, the two `cullMode` bits, `multiSampleCount` as `ms`).
External collaborators appear as abstract function fields: `sqrtF` models the
C `sqrt` routine; `clip` models `Clipper::Clip` (not part of `Renderer.cpp`),
returning the clipped polygon or `none` on a degenerate/fully-outside result
— the clip-flag argument derived from `depthClipEnable` is absorbed into it;
`setupRoutine` models the accept/reject result of the compiled setup
routine. -/
structure DrawState where
  lineWidth : ℚ := 1
  WxF : ℚ := 16
  HxF : ℚ := 16
  depthClipEnable : Bool := true
  bresenham : Bool := false
  frontFaceCCW : Bool := true
  cullFront : Bool := false
  cullBack : Bool := false
  ms : Nat := 1
  sqrtF : ℚ → ℚ := fun q => q
  clip : List float4 → Option (List float4) := fun p => some p
  setupRoutine : List float4 → Bool := fun _ => true

/-- `DrawCall::setupLine` (Renderer.cpp:918-1162).  The three early rejections
(fully culled, both `w ≤ 0`, zero direction vector) are followed by either the
rectangle construction (non-Bresenham) or the Bresenham parallelogram; the
"connecting diamonds" branch of the source (Renderer.cpp:995-1081) is dead
code guarded by `else if(false)` and has no counterpart here. -/
def setupLine (draw : DrawState) (v0 v1 : Vertex) : Bool :=
  if v0.cullMask ||| v1.cullMask = 0 then false
  else
  let P0 := v0.position
  let P1 := v1.position
  if P0.w ≤ 0 ∧ P1.w ≤ 0 then false
  else
  let lineWidth := draw.lineWidth
  let W := draw.WxF * (1 / subPixF)
  let H := draw.HxF * (1 / subPixF)
  let dx := W * (P1.x / P1.w - P0.x / P0.w)
  let dy := H * (P1.y / P1.w - P0.y / P0.w)
  if dx = 0 ∧ dy = 0 then false
  else
  if ¬draw.bresenham then
    -- Rectangle centered on the line segment (Renderer.cpp:952-993).
    let scale := lineWidth * (1 / 2) / draw.sqrtF (dx * dx + dy * dy)
    let dxs := dx * scale
    let dys := dy * scale
    let dx0h := dxs * P0.w / H
    let dy0w := dys * P0.w / W
    let dx1h := dxs * P1.w / H
    let dy1w := dys * P1.w / W
    let P : List float4 :=
      [{ P0 with x := P0.x + -dy0w, y := P0.y + dx0h },
       { P1 with x := P1.x + -dy1w, y := P1.y + dx1h },
       { P1 with x := P1.x + dy1w, y := P1.y + -dx1h },
       { P0 with x := P0.x + dy0w, y := P0.y + -dx0h }]
    match draw.clip P with
    | none => false
    | some poly => draw.setupRoutine poly
  else
    -- Parallelogram approximating a Bresenham line (Renderer.cpp:1082-1159).
    let dx0 := lineWidth * (1 / 2) * P0.w / W
    let dy0 := lineWidth * (1 / 2) * P0.w / H
    let dx1 := lineWidth * (1 / 2) * P1.w / W
    let dy1 := lineWidth * (1 / 2) * P1.w / H
    let Pa := { P0 with x := P0.x + -dx0 }  -- P[0]
    let Pb := { P0 with y := P0.y + dy0 }   -- P[1]
    let Pc := { P0 with x := P0.x + dx0 }   -- P[2]
    let Pd := { P0 with y := P0.y + -dy0 }  -- P[3]
    let Pe := { P1 with x := P1.x + -dx1 }  -- P[4]
    let Pf := { P1 with y := P1.y + dy1 }   -- P[5]
    let Pg := { P1 with x := P1.x + dx1 }   -- P[6]
    let Ph := { P1 with y := P1.y + -dy1 }  -- P[7]
    let L : List float4 :=
      if dx > -dy then
        if dx > dy then [Pb, Pf, Ph, Pd]  -- Right
        else [Pa, Pe, Pg, Pc]             -- Down
      else
        if dx > dy then [Pa, Pc, Pg, Pe]  -- Up
        else [Pb, Pd, Ph, Pf]             -- Left
    match draw.clip L with
    | none => false
    | some poly => draw.setupRoutine poly

/-- `DrawCall::setupLines` (Renderer.cpp:876-895): per accepted line the
primitive cursor advances by the sample count and the visible count by one.
The result is the pair (visible count, cursor advance). -/
def setupLines (draw : DrawState) (ts : List Triangle) : Nat × Nat :=
  ts.foldl
    (fun acc t =>
      if setupLine draw t.v0 t.v1 then (acc.1 + 1, acc.2 + draw.ms) else acc)
    (0, 0)

/-- The signed-area expression `A` computed by `setupWireframeTriangles`
(Renderer.cpp:789-791) over the vertices' projected screen coordinates. -/
def areaA (t : Triangle) : ℚ :=
  ((t.v0.projY : ℚ) - (t.v2.projY : ℚ)) * (t.v1.projX : ℚ) +
  ((t.v2.projY : ℚ) - (t.v1.projY : ℚ)) * (t.v0.projX : ℚ) +
  ((t.v1.projY : ℚ) - (t.v0.projY : ℚ)) * (t.v2.projX : ℚ)

/-- `DrawCall::setupWireframeTriangles` (Renderer.cpp:776-829): facing/cull
test on the sign-corrected area, then the three edges `(v0,v1)`, `(v1,v2)`,
`(v2,v0)` are handed to `setupLine`; per accepted edge the primitive cursor
advances by the sample count and the visible count by one.  The result is the
pair (visible count, cursor advance). -/
def setupWireframeTriangles (draw : DrawState) (ts : List Triangle) : Nat × Nat :=
  ts.foldl
    (fun acc t =>
      let A := areaA t
      let A := if xor (xor t.v0.wSign t.v1.wSign) t.v2.wSign then -A else A
      let frontFacing := if draw.frontFaceCCW then decide (A ≥ 0) else decide (A ≤ 0)
      if draw.cullFront && frontFacing then acc
      else if draw.cullBack && !frontFacing then acc
      else
        [(t.v0, t.v1), (t.v1, t.v2), (t.v2, t.v0)].foldl
          (fun acc2 e =>
            if setupLine draw e.1 e.2 then (acc2.1 + 1, acc2.2 + draw.ms) else acc2)
          acc)
    (0, 0)

/-- C9 claim-side reference: the shoelace signed area
`(1/2) Σ (x_i y_{i+1} − x_{i+1} y_i)` of the projected triangle, traversed in
screen orientation (y pointing down, cycle v0 → v2 → v1). -/
def refShoelaceArea (t : Triangle) : ℚ :=
  (1 / 2) * (((t.v0.projX : ℚ) * (t.v2.projY : ℚ) - (t.v2.projX : ℚ) * (t.v0.projY : ℚ)) +
             ((t.v2.projX : ℚ) * (t.v1.projY : ℚ) - (t.v1.projX : ℚ) * (t.v2.projY : ℚ)) +
             ((t.v1.projX : ℚ) * (t.v0.projY : ℚ) - (t.v0.projX : ℚ) * (t.v1.projY : ℚ)))

/-- C9 claim-side reference: the triangle's three edges, in the order the
source hands them to the line setup path (Renderer.cpp:810-816). -/
def edgesOf (t : Triangle) : List (Vertex × Vertex) :=
  [(t.v0, t.v1), (t.v1, t.v2), (t.v2, t.v0)]

lemma edgeFoldCount (draw : DrawState) (es : List (Vertex × Vertex)) :
    ∀ a b : Nat,
      es.foldl
        (fun acc2 e =>
          if setupLine draw e.1 e.2 then (acc2.1 + 1, acc2.2 + draw.ms) else acc2)
        (a, b) =
      (a + (es.filter (fun e => setupLine draw e.1 e.2)).length,
       b + draw.ms * (es.filter (fun e => setupLine draw e.1 e.2)).length) := by
  induction es with
  | nil => intro a b; simp
  | cons e es ih =>
      intro a b
      simp only [List.foldl_cons, List.filter_cons]
      by_cases h : setupLine draw e.1 e.2 = true
      · simp only [h, if_true, if_pos h, ih, List.length_cons]
        exact Prod.ext (by ring) (by ring)
      · simp [h, ih]

/-- C8: `setupLine` returns false — emitting no primitive, so the caller's
output cursor and visible count stay unchanged — whenever the bitwise OR of
the two endpoints' cull masks is zero, or both endpoints have clip-space
`w ≤ 0`, or the computed screen-space direction vector `(dx, dy)` is exactly
`(0, 0)`. -/
theorem setupLine_rejects (draw : DrawState) (v0 v1 : Vertex)
    (h : v0.cullMask ||| v1.cullMask = 0 ∨
         (v0.position.w ≤ 0 ∧ v1.position.w ≤ 0) ∨
         (draw.WxF * (1 / subPixF) *
            (v1.position.x / v1.position.w - v0.position.x / v0.position.w) = 0 ∧
          draw.HxF * (1 / subPixF) *
            (v1.position.y / v1.position.w - v0.position.y / v0.position.w) = 0)) :
    setupLine draw v0 v1 = false ∧
    setupLines draw [⟨v0, v1, v0⟩] = (0, 0) := by
  have hmain : setupLine draw v0 v1 = false := by
    by_cases h1 : v0.cullMask ||| v1.cullMask = 0
    · simp only [setupLine, if_pos h1]
    · by_cases h2 : v0.position.w ≤ 0 ∧ v1.position.w ≤ 0
      · simp only [setupLine, if_neg h1, if_pos h2]
      · have h3 : draw.WxF * (1 / subPixF) *
            (v1.position.x / v1.position.w - v0.position.x / v0.position.w) = 0 ∧
            draw.HxF * (1 / subPixF) *
            (v1.position.y / v1.position.w - v0.position.y / v0.position.w) = 0 := by
          rcases h with h | h | h
          · exact absurd h h1
          · exact absurd h h2
          · exact h
        simp only [setupLine, if_neg h1, if_neg h2, if_pos h3]
  exact ⟨hmain, by simp [setupLines, hmain]⟩

/-- C8 witness: a line whose endpoints are both fully culled (cull masks 0)
is rejected, and the single-line batch emits nothing. -/
theorem setupLine_rejects_witness :
    ({} : Vertex).cullMask ||| ({} : Vertex).cullMask = 0 ∧
    setupLine {} {} {} = false ∧
    setupLines {} [⟨{}, {}, {}⟩] = (0, 0) := by
  have h := setupLine_rejects {} {} {} (Or.inl rfl)
  exact ⟨rfl, h.1, h.2⟩

/-- C9: for every input triangle, `setupWireframeTriangles` computes the
signed area `A` by the shoelace formula over the three projected screen-space
vertex positions (the source's expression equals twice the reference shoelace
area in screen orientation), negates `A` exactly when the XOR of the IEEE
sign bits of the three clip-space `w` values is set, classifies front-facing
as `A ≥ 0` for counter-clockwise front faces and `A ≤ 0` for clockwise ones,
skips the triangle when the corresponding front/back cull-mode bit is set,
and otherwise passes exactly the three edges `(v0,v1)`, `(v1,v2)`, `(v2,v0)`
to line setup, advancing the visible count by one and the output cursor by
the sample count for each edge that `setupLine` accepts. -/
theorem setupWireframeTriangles_spec (draw : DrawState) (t : Triangle) :
    areaA t = 2 * refShoelaceArea t ∧
    setupWireframeTriangles draw [t] =
      (let A := areaA t
       let A := if xor (xor t.v0.wSign t.v1.wSign) t.v2.wSign then -A else A
       let frontFacing := if draw.frontFaceCCW then decide (A ≥ 0) else decide (A ≤ 0)
       if draw.cullFront && frontFacing then (0, 0)
       else if draw.cullBack && !frontFacing then (0, 0)
       else
         (((edgesOf t).filter (fun e => setupLine draw e.1 e.2)).length,
          draw.ms * ((edgesOf t).filter (fun e => setupLine draw e.1 e.2)).length)) := by
  constructor
  · unfold areaA refShoelaceArea
    ring
  · have hfold := edgeFoldCount draw [(t.v0, t.v1), (t.v1, t.v2), (t.v2, t.v0)] 0 0
    show (let A := areaA t
          let A := if xor (xor t.v0.wSign t.v1.wSign) t.v2.wSign then -A else A
          let frontFacing := if draw.frontFaceCCW then decide (A ≥ 0) else decide (A ≤ 0)
          if draw.cullFront && frontFacing then ((0 : Nat), (0 : Nat))
          else if draw.cullBack && !frontFacing then (0, 0)
          else
            [(t.v0, t.v1), (t.v1, t.v2), (t.v2, t.v0)].foldl
              (fun acc2 e =>
                if setupLine draw e.1 e.2 then (acc2.1 + 1, acc2.2 + draw.ms) else acc2)
              (0, 0)) = _
    simp only [edgesOf, hfold, Nat.zero_add]

/-! Draw submission, batch scheduling and teardown model. -/

/-- The primitive-assembly strategies selectable in `Renderer::draw`
(Renderer.cpp:345-373). -/
inductive SetupKind
  | solidTriangles
  | wireframeTriangles
  | pointTriangles
  | lines
  | points
deriving DecidableEq, Repr

/-- Modelled from the spec: `vk::VertexInputInterfaceState::isDrawTriangle
(false, mode)` (declared outside `src/`) classifies the bound topology as
triangle-class, ignoring the polygon mode when its first argument is false. -/
def isDrawTriangle : VkPrimitiveTopology → Bool
  | .triangleList => true
  | .triangleStrip => true
  | .triangleFan => true
  | _ => false

/-- Modelled from the spec: `vk::VertexInputInterfaceState::isDrawLine(false,
mode)` — line-class topology classification. -/
def isDrawLine : VkPrimitiveTopology → Bool
  | .lineList => true
  | .lineStrip => true
  | _ => false

/-- The slice of the combined `vk::GraphicsState` that `Renderer::draw`
consults for the modelled fields: rasterizer discard, sample count, topology,
polygon mode, provoking-vertex mode, whether occlusion is enabled in the
pixel state, which attachments are bound, the two pipeline layouts
(identified by number) and the image-write flags of the two stages. -/
structure GraphicsPipelineState where
  hasRasterizerDiscard : Bool := false
  sampleCount : Nat := 1
  topology : VkPrimitiveTopology := .triangleList
  polygonMode : VkPolygonMode := .fill
  provokingVertexMode : VkProvokingVertexMode := .firstVertex
  occlusionEnabled : Bool := false
  colorAttachments : List Bool := []
  hasDepthBuffer : Bool := false
  hasStencilBuffer : Bool := false
  preRasterLayout : Nat := 0
  fragmentLayout : Nat := 0
  preRasterizationContainsImageWrite : Bool := false
  fragmentContainsImageWrite : Bool := false
deriving DecidableEq, Repr

/-- The populated state of one `sw::DrawCall` after `Renderer::draw`: the
batching parameters, the selected strategy/routines (`none`/`false` when
never set because rasterization is discarded), whether the per-cluster
occlusion counters were cleared (Renderer.cpp:411-417), which attachment
state was recorded (Renderer.cpp:440-472), and the teardown-relevant
flags. -/
structure DrawCallModel where
  id : Nat := 0
  numPrimitives : Nat := 0
  numPrimitivesPerBatch : Nat := 0
  numBatches : Nat := 0
  topology : VkPrimitiveTopology := .triangleList
  provokingVertexMode : VkProvokingVertexMode := .firstVertex
  rasterizerDiscard : Bool := false
  setupPrimitives : Option SetupKind := none
  setupRoutineSet : Bool := false
  pixelRoutineSet : Bool := false
  occlusionCleared : Bool := false
  colorBufferSet : List Bool := []
  depthBufferSet : Bool := false
  stencilBufferSet : Bool := false
  preRasterizationContainsImageWrite : Bool := false
  fragmentContainsImageWrite : Bool := false
  preRasterizationPipelineLayout : Nat := 0
  fragmentPipelineLayout : Nat := 0
  hasOcclusionQuery : Bool := false
  hasEvents : Bool := false
deriving DecidableEq, Repr

/-- The population of one draw object by `Renderer::draw`
(Renderer.cpp:250-485).  "The sample count affects the batch size even if
rasterization is disabled" (Renderer.cpp:250-252): `ms` is 1 under rasterizer
discard, else the fragment output interface's sample count.  The draw's
`numPrimitivesPerBatch` and `numBatches` are stored at Renderer.cpp:261-262.
Inside the non-discard block the source's polygon-mode switch
(Renderer.cpp:348-364) also executes `numPrimitivesPerBatch /= 3` for the
LINE and POINT modes on a triangle topology — but only on the local variable,
after the draw's fields above were already stored, so the division never
reaches the draw object (a dead store); accordingly it has no effect in this
model either. -/
def buildDrawCall (id : Nat) (ps : GraphicsPipelineState)
    (hasOcclusionQuery hasEvents : Bool) (count : Nat) : DrawCallModel :=
  let ms := if ps.hasRasterizerDiscard then 1 else ps.sampleCount
  let numPrimitivesPerBatch := MaxBatchSize / ms
  let base : DrawCallModel :=
    { id := id
      numPrimitives := count
      numPrimitivesPerBatch := numPrimitivesPerBatch
      numBatches := (count + numPrimitivesPerBatch - 1) / numPrimitivesPerBatch
      topology := ps.topology
      provokingVertexMode := ps.provokingVertexMode
      rasterizerDiscard := ps.hasRasterizerDiscard
      preRasterizationContainsImageWrite := ps.preRasterizationContainsImageWrite
      fragmentContainsImageWrite := ps.fragmentContainsImageWrite
      preRasterizationPipelineLayout := ps.preRasterLayout
      hasOcclusionQuery := hasOcclusionQuery
      hasEvents := hasEvents }
  if ¬ps.hasRasterizerDiscard then
    { base with
      setupPrimitives := some
        (if isDrawTriangle ps.topology then
           match ps.polygonMode with
           | .fill => .solidTriangles
           | .line => .wireframeTriangles
           | .point => .pointTriangles
         else if isDrawLine ps.topology then .lines
         else .points)
      setupRoutineSet := true
      pixelRoutineSet := true
      fragmentPipelineLayout := ps.fragmentLayout
      occlusionCleared := ps.occlusionEnabled
      colorBufferSet := ps.colorAttachments
      depthBufferSet := ps.hasDepthBuffer
      stencilBufferSet := ps.hasStencilBuffer }
  else base

/-- The renderer-side observables of draw submission: the draw-identifier
counter (`nextDrawID`), the draws handed to the scheduler, the outstanding
event count (`events->add()` in `DrawCall::setup`), and the tickets reserved
from the draw-completion queue and (per cluster queue) for the batches. -/
structure RendererState where
  nextDrawID : Nat := 0
  scheduled : List DrawCallModel := []
  eventCount : Nat := 0
  drawTicketsTaken : Nat := 0
  clusterTicketsTaken : Nat := 0
deriving DecidableEq, Repr

/-- `Renderer::draw` (Renderer.cpp:183-488) together with the bookkeeping that
submission immediately triggers in `DrawCall::run` and `DrawCall::setup`: a
zero-count draw returns before anything happens (Renderer.cpp:187);
otherwise the draw identifier advances, the populated draw is handed to the
scheduler, one draw-completion ticket is taken and one ticket per batch is
taken from every cluster queue, and the event count is incremented. -/
def rendererDraw (st : RendererState) (ps : GraphicsPipelineState)
    (hasOcclusionQuery hasEvents : Bool) (count : Nat) : RendererState :=
  if count = 0 then st
  else
    let d := buildDrawCall st.nextDrawID ps hasOcclusionQuery hasEvents count
    { nextDrawID := st.nextDrawID + 1
      scheduled := st.scheduled ++ [d]
      eventCount := st.eventCount + (if hasEvents then 1 else 0)
      drawTicketsTaken := st.drawTicketsTaken + 1
      clusterTicketsTaken := st.clusterTicketsTaken + d.numBatches }

/-- C1 claim-side: primitives-per-batch as the claim states it —
`MaxBatchSize` divided by the active sample count, further divided by 3 for
the polygon modes that expand one triangle into three derived primitives
(wireframe and point-fill on a triangle topology). -/
def claimPrimitivesPerBatch (ms : Nat) (expandsTriangle : Bool) : Nat :=
  let p := MaxBatchSize / ms
  if expandsTriangle then p / 3 else p

/-- C1 claim-side: batch count as the ceiling of the primitive count divided
by the (possibly divided-by-3) primitives-per-batch value. -/
def claimNumBatches (count ms : Nat) (expandsTriangle : Bool) : Nat :=
  (count + claimPrimitivesPerBatch ms expandsTriangle - 1) /
    claimPrimitivesPerBatch ms expandsTriangle

/-- The two pipeline stages whose descriptor sets teardown may notify. -/
inductive Stage
  | preRasterization
  | fragment
deriving DecidableEq, Repr

/-- Outward effects of `DrawCall::teardown`. -/
inductive TeardownEvent
  | eventsDone
  | dsContentsChanged (stage : Stage) (layout : Nat)
  | occlusionAdd (cluster : Nat)
  | occlusionFinish
  | attachmentContentsChanged (index : Nat)
deriving DecidableEq, Repr

/-- `DrawCall::teardown` (Renderer.cpp:503-547) as its sequence of outward
effects: event signaling; the pre-rasterization descriptor-set notification
(Renderer.cpp:515-518, issued regardless of rasterizer discard); and — only
when rasterization was not discarded — occlusion-query accumulation per
cluster plus `finish`, contents-changed notifications for the bound color
attachments, and the fragment-stage descriptor-set notification, which is
suppressed when pre-rasterization already notified the same pipeline layout
(Renderer.cpp:539-545). -/
def teardownEvents (d : DrawCallModel) : List TeardownEvent :=
  (if d.hasEvents then [.eventsDone] else []) ++
  (if d.preRasterizationContainsImageWrite then
     [.dsContentsChanged .preRasterization d.preRasterizationPipelineLayout]
   else []) ++
  (if ¬d.rasterizerDiscard then
     (if d.hasOcclusionQuery then
        ((List.range MaxClusterCount).map TeardownEvent.occlusionAdd) ++ [.occlusionFinish]
      else []) ++
     (d.colorBufferSet.enum.filterMap
        (fun p => if p.2 then some (TeardownEvent.attachmentContentsChanged p.1) else none)) ++
     (let descSetAlreadyNotified := d.preRasterizationContainsImageWrite &&
        (d.fragmentPipelineLayout == d.preRasterizationPipelineLayout)
      if d.fragmentContainsImageWrite && !descSetAlreadyNotified then
        [.dsContentsChanged .fragment d.fragmentPipelineLayout]
      else [])
   else [])

/-- Events of one scheduled batch task and its pixel continuations. -/
inductive BatchEvent
  | vertices
  | primitives
  | attachPixel (cluster : Nat)
  | pixel (cluster : Nat)
  | ticketDone (cluster : Nat)
deriving DecidableEq, Repr

/-- The per-cluster pixel continuation attached by `DrawCall::processPixels`
(Renderer.cpp:650-659): run the pixel routine for the cluster, then release
that cluster's ticket. -/
def pixelContinuation (cluster : Nat) : List BatchEvent :=
  [.pixel cluster, .ticketDone cluster]

/-- The final loop of the batch task (Renderer.cpp:590-593): release every
cluster ticket directly, without scheduling pixel work. -/
def releaseAllTickets (clusterCount : Nat) : List BatchEvent :=
  (List.range clusterCount).map BatchEvent.ticketDone

/-- The attachment loop of `DrawCall::processPixels` (Renderer.cpp:650-659):
one pixel continuation per cluster ticket. -/
def attachAllPixels (clusterCount : Nat) : List BatchEvent :=
  (List.range clusterCount).map BatchEvent.attachPixel

/-- The batch task scheduled by `DrawCall::run` (Renderer.cpp:576-594):
vertex processing; then, unless rasterization is discarded, primitive setup;
if any primitives survived setup (`batch->numVisible > 0`), pixel
continuations are attached and the task returns; otherwise every cluster
ticket is released directly.  `numVisible` stands for the value
`processPrimitives` stored in the batch. -/
def batchTaskTrace (rasterizerDiscard : Bool) (numVisible clusterCount : Nat) :
    List BatchEvent :=
  .vertices ::
    (if ¬rasterizerDiscard then
       .primitives ::
         (if numVisible > 0 then attachAllPixels clusterCount
          else releaseAllTickets clusterCount)
     else releaseAllTickets clusterCount)

/-- Pixel-continuation attachment events. -/
def isAttachEvent : BatchEvent → Bool
  | .attachPixel _ => true
  | _ => false

/-- Events C6 forbids for a rasterizer-discard draw's batch task: primitive
setup, pixel attachment and pixel execution. -/
def isSetupOrPixelEvent : BatchEvent → Bool
  | .primitives => true
  | .attachPixel _ => true
  | .pixel _ => true
  | _ => false

/-- Teardown events C6 forbids for a rasterizer-discard draw: occlusion-query
accumulation, attachment contents-changed, and the fragment-stage
descriptor-set notification. -/
def isDiscardForbiddenEvent : TeardownEvent → Bool
  | .occlusionAdd _ => true
  | .occlusionFinish => true
  | .attachmentContentsChanged _ => true
  | .dsContentsChanged .fragment _ => true
  | _ => false

/-- Descriptor-set ContentsChanged notification for pipeline layout `L`
(either stage). -/
def isDsNotifyFor (L : Nat) : TeardownEvent → Bool
  | .dsContentsChanged _ l => l == L
  | _ => false

/-! Ticket-queue ordering model.  Modelled from the spec: `marl::Ticket` and
`marl::Ticket::Queue` are part of the marl library, which is not under this
repository's sources; the spec describes the queue as a FIFO sequencer where
"take" reserves the next position in order, a continuation attached to a
ticket runs exactly when the ticket becomes the head of its queue, and "done"
advances the queue. -/

/-- A pixel-effect trace: each entry `(cluster, ticket)` records one pixel
continuation running on a cluster under its reserved ticket number.  The
trace is FIFO-valid (relative to per-cluster counts of already-completed
tickets) when every effect's ticket number equals the number of effects
already applied to its cluster — a continuation runs exactly when all
earlier-reserved tickets of its cluster queue have completed, and runs
once. -/
def fifoValid : (Nat → Nat) → List (Nat × Nat) → Prop
  | _, [] => True
  | counts, e :: rest =>
      e.2 = counts e.1 ∧
        fifoValid (fun c => if c = e.1 then counts c + 1 else counts c) rest

/-- The pixel effects applied to cluster `c`, in application order, listed as
the ticket numbers they were reserved under. -/
def clusterTrace (tr : List (Nat × Nat)) (c : Nat) : List Nat :=
  (tr.filter (fun e => e.1 == c)).map Prod.snd

/-- The ticket number reserved for batch `b` of draw `d` on every cluster
queue when the submitted draws have batch counts `nbs`: `DrawCall::run`
(Renderer.cpp:564-573) takes one ticket per cluster for each batch, for all
batches of each draw in submission order and in batch-index order within a
draw, so batch `b` of draw `d` holds position `(sum of earlier draws' batch
counts) + b` in every cluster queue. -/
def ticketOf (nbs : List Nat) (d b : Nat) : Nat :=
  (nbs.take d).sum + b

lemma countP_map_eq_zero {α β : Type} (f : α → β) (p : β → Bool) (l : List α)
    (h : ∀ a, p (f a) = false) : (l.map f).countP p = 0 := by
  induction l with
  | nil => rfl
  | cons a l ih => simp [List.countP_cons, h, ih]

lemma count_map_range_inj {β : Type} [DecidableEq β] (f : Nat → β)
    (hf : Function.Injective f) (c n : Nat) (hc : c < n) :
    ((List.range n).map f).count (f c) = 1 := by
  rw [List.count_map_of_injective _ f hf]
  exact List.count_eq_one_of_mem (List.nodup_range n) (List.mem_range.mpr hc)

lemma count_eq_zero_of_map_range {β : Type} [DecidableEq β] (f : Nat → β) (x : β)
    (hx : ∀ a, f a ≠ x) (n : Nat) : ((List.range n).map f).count x = 0 := by
  rw [List.count_eq_zero]
  intro hmem
  rw [List.mem_map] at hmem
  obtain ⟨a, _, ha⟩ := hmem
  exact hx a ha

/-- C1 failing input: a wireframe (polygon-mode LINE) triangle-list draw, one
sample, 128 primitives, rasterization enabled. -/
def wireframePS : GraphicsPipelineState :=
  { hasRasterizerDiscard := false
    sampleCount := 1
    topology := .triangleList
    polygonMode := .line }

/-- C1 (code bug, evaluated at the failing input): for a wireframe
triangle-list draw with `ms = 1` and 128 primitives, the draw object stores
`numPrimitivesPerBatch = 128` and `numBatches = 1`, because the source
executes `numPrimitivesPerBatch /= 3` on a local variable only after
`draw->numPrimitivesPerBatch` and `draw->numBatches` were stored
(Renderer.cpp:261-262 versus 355); the claim (and the spec's batching rule)
require `128 / 3 = 42` primitives per batch and `⌈128 / 42⌉ = 4` batches.
The strategy selected is indeed `setupWireframeTriangles`, which emits up to
three primitives per input triangle. -/
theorem wireframe_batching_dead_store :
    (buildDrawCall 0 wireframePS false false 128).numPrimitivesPerBatch = 128 ∧
    (buildDrawCall 0 wireframePS false false 128).numBatches = 1 ∧
    (buildDrawCall 0 wireframePS false false 128).setupPrimitives =
      some .wireframeTriangles ∧
    claimPrimitivesPerBatch 1 true = 42 ∧
    claimNumBatches 128 1 true = 4 :=
  ⟨rfl, rfl, rfl, rfl, rfl⟩

/-- C7: a zero-count draw is a complete no-op: it returns immediately without
advancing the draw-identifier counter, without handing any draw to the
scheduler, without reserving draw-completion or cluster tickets, and without
touching the event count — the renderer state is unchanged. -/
theorem rendererDraw_zero_noop (st : RendererState) (ps : GraphicsPipelineState)
    (hq he : Bool) :
    rendererDraw st ps hq he 0 = st ∧
    (rendererDraw st ps hq he 0).nextDrawID = st.nextDrawID ∧
    (rendererDraw st ps hq he 0).scheduled = st.scheduled ∧
    (rendererDraw st ps hq he 0).eventCount = st.eventCount ∧
    (rendererDraw st ps hq he 0).drawTicketsTaken = st.drawTicketsTaken ∧
    (rendererDraw st ps hq he 0).clusterTicketsTaken = st.clusterTicketsTaken := by
  have h : rendererDraw st ps hq he 0 = st := by simp [rendererDraw]
  exact ⟨h, by rw [h], by rw [h], by rw [h], by rw [h], by rw [h]⟩

/-- C5: for every scheduled batch task: if rasterization is discarded or zero
primitives survive setup (`numVisible = 0`), the task releases (calls done
on) every one of its per-cluster tickets and never attaches pixel-stage work
to any cluster queue; otherwise it attaches exactly one pixel continuation
per cluster ticket, releases no ticket directly, and each continuation
releases its ticket after running the pixel routine. -/
theorem batchTask_ticket_discipline (discard : Bool) (numVisible clusterCount c : Nat)
    (hc : c < clusterCount) :
    ((discard = true ∨ numVisible = 0) →
      (batchTaskTrace discard numVisible clusterCount).count (.ticketDone c) = 1 ∧
      (batchTaskTrace discard numVisible clusterCount).countP isAttachEvent = 0) ∧
    (discard = false → 0 < numVisible →
      (batchTaskTrace discard numVisible clusterCount).count (.attachPixel c) = 1 ∧
      (batchTaskTrace discard numVisible clusterCount).count (.ticketDone c) = 0 ∧
      pixelContinuation c = [.pixel c, .ticketDone c]) := by
  have hdone : (releaseAllTickets clusterCount).count (BatchEvent.ticketDone c) = 1 :=
    count_map_range_inj _ (fun a b hab => by injection hab) c clusterCount hc
  have hatt0 : (releaseAllTickets clusterCount).countP isAttachEvent = 0 :=
    countP_map_eq_zero _ _ _ (fun a => rfl)
  constructor
  · intro h
    rcases h with h | h
    · subst h
      exact ⟨by simp [batchTaskTrace, List.count_cons, hdone],
             by simp [batchTaskTrace, List.countP_cons, hatt0, isAttachEvent]⟩
    · subst h
      cases discard
      · exact ⟨by simp [batchTaskTrace, List.count_cons, hdone],
               by simp [batchTaskTrace, List.countP_cons, hatt0, isAttachEvent]⟩
      · exact ⟨by simp [batchTaskTrace, List.count_cons, hdone],
               by simp [batchTaskTrace, List.countP_cons, hatt0, isAttachEvent]⟩
  · intro hd hv
    subst hd
    have hatt1 : (attachAllPixels clusterCount).count (BatchEvent.attachPixel c) = 1 :=
      count_map_range_inj _ (fun a b hab => by injection hab) c clusterCount hc
    have hdone0 : (attachAllPixels clusterCount).count (BatchEvent.ticketDone c) = 0 :=
      count_eq_zero_of_map_range _ _ (fun a => by simp) clusterCount
    refine ⟨?_, ?_, rfl⟩
    · simp [batchTaskTrace, List.count_cons, hv, hatt1]
    · simp [batchTaskTrace, List.count_cons, hv, hdone0]

/-- C5 witness: with two clusters, a discarded batch releases cluster 0's
ticket directly, while a batch with three visible primitives attaches exactly
one pixel continuation on cluster 0. -/
theorem batchTask_ticket_discipline_witness :
    (0 : Nat) < 2 ∧
    (batchTaskTrace true 0 2).count (.ticketDone 0) = 1 ∧
    (batchTaskTrace true 0 2).countP isAttachEvent = 0 ∧
    (batchTaskTrace false 3 2).count (.attachPixel 0) = 1 ∧
    (batchTaskTrace false 3 2).count (.ticketDone 0) = 0 := by
  have h1 := (batchTask_ticket_discipline true 0 2 0 (by decide)).1 (Or.inl rfl)
  have h2 := (batchTask_ticket_discipline false 3 2 0 (by decide)).2 rfl (by decide)
  exact ⟨by decide, h1.1, h1.2, h2.1, h2.2.1⟩

/-- C6: for a draw whose pipeline state has rasterizer discard enabled, only
vertex processing and draw-completion bookkeeping execute: no setup-primitives
strategy, setup routine or pixel routine is selected on the draw, the
occlusion counters and the color/depth/stencil attachment state stay
unpopulated, the batch task neither runs primitive setup nor attaches or runs
pixel-stage work, and teardown performs no occlusion-query accumulation and no
attachment or fragment-stage contents-changed notification. -/
theorem rasterizerDiscard_vertex_only (id : Nat) (ps : GraphicsPipelineState)
    (hq he : Bool) (count numVisible clusterCount : Nat)
    (hd : ps.hasRasterizerDiscard = true) :
    (buildDrawCall id ps hq he count).setupPrimitives = none ∧
    (buildDrawCall id ps hq he count).setupRoutineSet = false ∧
    (buildDrawCall id ps hq he count).pixelRoutineSet = false ∧
    (buildDrawCall id ps hq he count).occlusionCleared = false ∧
    (buildDrawCall id ps hq he count).colorBufferSet = [] ∧
    (buildDrawCall id ps hq he count).depthBufferSet = false ∧
    (buildDrawCall id ps hq he count).stencilBufferSet = false ∧
    (batchTaskTrace (buildDrawCall id ps hq he count).rasterizerDiscard numVisible
        clusterCount).countP isSetupOrPixelEvent = 0 ∧
    (teardownEvents (buildDrawCall id ps hq he count)).countP isDiscardForbiddenEvent = 0 := by
  have hrel : (releaseAllTickets clusterCount).countP isSetupOrPixelEvent = 0 :=
    countP_map_eq_zero _ _ _ (fun a => rfl)
  have hdisc : (buildDrawCall id ps hq he count).rasterizerDiscard = true := by
    simp [buildDrawCall, hd]
  refine ⟨by simp [buildDrawCall, hd], by simp [buildDrawCall, hd],
    by simp [buildDrawCall, hd], by simp [buildDrawCall, hd],
    by simp [buildDrawCall, hd], by simp [buildDrawCall, hd],
    by simp [buildDrawCall, hd], ?_, ?_⟩
  · rw [hdisc]
    simp [batchTaskTrace, List.countP_cons, isSetupOrPixelEvent, hrel]
  · cases hev : (buildDrawCall id ps hq he count).hasEvents <;>
      cases hpw : (buildDrawCall id ps hq he count).preRasterizationContainsImageWrite <;>
      simp [teardownEvents, hdisc, hev, hpw, List.countP_append, List.countP_cons,
        isDiscardForbiddenEvent]

/-- C6 witness input: a rasterizer-discard pipeline state. -/
def discardPS : GraphicsPipelineState := { hasRasterizerDiscard := true }

/-- C6 witness at a concrete rasterizer-discard draw. -/
theorem rasterizerDiscard_vertex_only_witness :
    discardPS.hasRasterizerDiscard = true ∧
    (buildDrawCall 0 discardPS false false 7).setupPrimitives = none ∧
    (batchTaskTrace (buildDrawCall 0 discardPS false false 7).rasterizerDiscard 1
        16).countP isSetupOrPixelEvent = 0 ∧
    (teardownEvents (buildDrawCall 0 discardPS false false 7)).countP
      isDiscardForbiddenEvent = 0 := by
  have h := rasterizerDiscard_vertex_only 0 discardPS false false 7 1 16 rfl
  exact ⟨rfl, h.1, h.2.2.2.2.2.2.2.1, h.2.2.2.2.2.2.2.2⟩

lemma countP_colorNotifies_zero (L : Nat) (bs : List (Nat × Bool)) :
    (bs.filterMap
       (fun p => if p.2 then some (TeardownEvent.attachmentContentsChanged p.1) else none)).countP
      (isDsNotifyFor L) = 0 := by
  rw [List.countP_eq_zero]
  intro a ha
  rw [List.mem_filterMap] at ha
  obtain ⟨q, _, hf⟩ := ha
  by_cases hb : q.2 = true
  · rw [if_pos hb] at hf
    injection hf with hfa
    subst hfa
    simp [isDsNotifyFor]
  · rw [if_neg hb] at hf
    exact Option.noConfusion hf

lemma mem_colorNotifies_no_ds (x : Stage) (L : Nat) (bs : List (Nat × Bool)) :
    TeardownEvent.dsContentsChanged x L ∉
      bs.filterMap
        (fun p => if p.2 then some (TeardownEvent.attachmentContentsChanged p.1) else none) := by
  intro ha
  rw [List.mem_filterMap] at ha
  obtain ⟨q, _, hf⟩ := ha
  by_cases hb : q.2 = true
  · rw [if_pos hb] at hf
    exact TeardownEvent.noConfusion (Option.some.inj hf)
  · rw [if_neg hb] at hf
    exact Option.noConfusion hf

/-- C10: during teardown of a non-rasterizer-discard draw, the descriptor-set
ContentsChanged notification for a given pipeline layout is issued at most
once; the fragment-stage notification is issued if and only if the fragment
stage contains an image write and it was not already covered by the
pre-rasterization notification on the same layout (pre-rasterization image
write with equal pipeline layouts). -/
theorem teardown_notifies_layout_once (d : DrawCallModel) (L : Nat)
    (hnd : d.rasterizerDiscard = false) :
    (teardownEvents d).countP (isDsNotifyFor L) ≤ 1 ∧
    ((TeardownEvent.dsContentsChanged .fragment d.fragmentPipelineLayout ∈ teardownEvents d) ↔
      (d.fragmentContainsImageWrite = true ∧
        ¬(d.preRasterizationContainsImageWrite = true ∧
          d.fragmentPipelineLayout = d.preRasterizationPipelineLayout))) := by
  have hsplit : teardownEvents d =
      (if d.hasEvents then [TeardownEvent.eventsDone] else []) ++
      (if d.preRasterizationContainsImageWrite then
         [TeardownEvent.dsContentsChanged .preRasterization d.preRasterizationPipelineLayout]
       else []) ++
      ((if d.hasOcclusionQuery then
          ((List.range MaxClusterCount).map TeardownEvent.occlusionAdd) ++
            [TeardownEvent.occlusionFinish]
        else []) ++
       (d.colorBufferSet.enum.filterMap
          (fun p => if p.2 then some (TeardownEvent.attachmentContentsChanged p.1) else none)) ++
       (if d.fragmentContainsImageWrite &&
           !(d.preRasterizationContainsImageWrite &&
             (d.fragmentPipelineLayout == d.preRasterizationPipelineLayout)) then
          [TeardownEvent.dsContentsChanged .fragment d.fragmentPipelineLayout]
        else [])) := by
    simp [teardownEvents, hnd]
  have hocc0 : (if d.hasOcclusionQuery then
      ((List.range MaxClusterCount).map TeardownEvent.occlusionAdd) ++
        [TeardownEvent.occlusionFinish]
    else []).countP (isDsNotifyFor L) = 0 := by
    have h0 : ((List.range MaxClusterCount).map TeardownEvent.occlusionAdd).countP
        (isDsNotifyFor L) = 0 := countP_map_eq_zero _ _ _ (fun a => rfl)
    cases hq : d.hasOcclusionQuery <;>
      simp [List.countP_append, List.countP_cons, isDsNotifyFor, h0]
  have hev0 : (if d.hasEvents then [TeardownEvent.eventsDone] else []).countP
      (isDsNotifyFor L) = 0 := by
    cases he : d.hasEvents <;> simp [List.countP_cons, isDsNotifyFor]
  constructor
  · rw [hsplit]
    simp only [List.countP_append, hev0, hocc0, countP_colorNotifies_zero,
      Nat.zero_add, Nat.add_zero]
    by_cases hpw : d.preRasterizationContainsImageWrite = true <;>
      by_cases hfw : d.fragmentContainsImageWrite = true <;>
      by_cases heq : d.fragmentPipelineLayout = d.preRasterizationPipelineLayout <;>
      simp [hpw, hfw, heq, List.countP_cons, isDsNotifyFor, beq_iff_eq,
        Bool.not_eq_true] <;>
      split_ifs <;> omega
  · rw [hsplit]
    simp only [List.mem_append]
    have hnoE1 : TeardownEvent.dsContentsChanged .fragment d.fragmentPipelineLayout ∉
        (if d.hasEvents then [TeardownEvent.eventsDone] else []) := by
      cases he : d.hasEvents <;> simp
    have hnoE2 : TeardownEvent.dsContentsChanged .fragment d.fragmentPipelineLayout ∉
        (if d.preRasterizationContainsImageWrite then
           [TeardownEvent.dsContentsChanged .preRasterization d.preRasterizationPipelineLayout]
         else []) := by
      cases hp : d.preRasterizationContainsImageWrite <;> simp
    have hnoE3 : TeardownEvent.dsContentsChanged .fragment d.fragmentPipelineLayout ∉
        (if d.hasOcclusionQuery then
           ((List.range MaxClusterCount).map TeardownEvent.occlusionAdd) ++
             [TeardownEvent.occlusionFinish]
         else []) := by
      cases hq : d.hasOcclusionQuery <;> simp
    have hnoE4 := mem_colorNotifies_no_ds .fragment d.fragmentPipelineLayout
      d.colorBufferSet.enum
    constructor
    · intro hmem
      rcases hmem with ((h1 | h2) | ((h3 | h4) | h5))
      · exact absurd h1 hnoE1
      · exact absurd h2 hnoE2
      · exact absurd h3 hnoE3
      · exact absurd h4 hnoE4
      · by_cases hcond : (d.fragmentContainsImageWrite &&
            !(d.preRasterizationContainsImageWrite &&
              (d.fragmentPipelineLayout == d.preRasterizationPipelineLayout))) = true
        · rw [Bool.and_eq_true, Bool.not_eq_true', Bool.and_eq_false_iff] at hcond
          refine ⟨hcond.1, ?_⟩
          rcases hcond.2 with hx | hx
          · intro hy
            rw [hy.1] at hx
            exact Bool.noConfusion hx
          · intro hy
            rw [beq_eq_false_iff_ne] at hx
            exact hx hy.2
        · rw [if_neg hcond] at h5
          exact absurd h5 (List.not_mem_nil _)
    · intro hcond
      refine Or.inr (Or.inr ?_)
      have hbool : (d.fragmentContainsImageWrite &&
          !(d.preRasterizationContainsImageWrite &&
            (d.fragmentPipelineLayout == d.preRasterizationPipelineLayout))) = true := by
        rw [Bool.and_eq_true, Bool.not_eq_true', Bool.and_eq_false_iff]
        refine ⟨hcond.1, ?_⟩
        by_cases hp : d.preRasterizationContainsImageWrite = true
        · right
          rw [beq_eq_false_iff_ne]
          exact fun hy => hcond.2 ⟨hp, hy⟩
        · left
          exact Bool.not_eq_true _ ▸ hp
      rw [hbool]
      simp

/-- C10 witness input: a non-discard draw where both stages write images
through the same pipeline layout. -/
def dedupDraw : DrawCallModel :=
  { rasterizerDiscard := false
    preRasterizationContainsImageWrite := true
    fragmentContainsImageWrite := true
    preRasterizationPipelineLayout := 3
    fragmentPipelineLayout := 3 }

/-- C10 witness: for `dedupDraw`, layout 3 is notified at most once and the
fragment-stage notification is suppressed. -/
theorem teardown_notifies_layout_once_witness :
    dedupDraw.rasterizerDiscard = false ∧
    (teardownEvents dedupDraw).countP (isDsNotifyFor 3) ≤ 1 ∧
    ¬(TeardownEvent.dsContentsChanged .fragment 3 ∈ teardownEvents dedupDraw) := by
  have h := teardown_notifies_layout_once dedupDraw 3 rfl
  refine ⟨rfl, h.1, ?_⟩
  intro hmem
  have h2 := h.2.mp hmem
  exact h2.2 ⟨rfl, rfl⟩

lemma fifoValid_clusterTrace (tr : List (Nat × Nat)) :
    ∀ counts : Nat → Nat, fifoValid counts tr →
      ∀ c, clusterTrace tr c = List.range' (counts c) (clusterTrace tr c).length := by
  induction tr with
  | nil => intro counts _ c; rfl
  | cons e tr ih =>
      intro counts h c
      obtain ⟨h1, h2⟩ := h
      by_cases hc : e.1 = c
      · subst hc
        have hkeep : clusterTrace (e :: tr) e.1 = e.2 :: clusterTrace tr e.1 := by
          simp [clusterTrace, List.filter_cons]
        have ih2 := ih _ h2 e.1
        simp only [eq_self_iff_true, if_true] at ih2
        rw [hkeep, List.length_cons, List.range'_succ, ← ih2, h1]
      · have hskip : clusterTrace (e :: tr) c = clusterTrace tr c := by
          simp only [clusterTrace, List.filter_cons]
          have hbeq : (e.1 == c) = false := by
            rw [beq_eq_false_iff_ne]
            exact hc
          rw [hbeq]
          simp
        have ih2 := ih _ h2 c
        have hcond : ¬(c = e.1) := fun hh => hc hh.symm
        simp only [hcond, if_false] at ih2
        rw [hskip, ih2]
        simp [List.length_range']

/-- C2: regardless of the order in which batches' vertex and setup work
completes — i.e. for every FIFO-valid interleaving of pixel continuations —
the pixel-stage effects on any given cluster are applied in exactly
ticket-reservation order: the sequence of ticket numbers applied to cluster
`c` is `0, 1, 2, …`.  Moreover the ticket numbers reserved by `DrawCall::run`
respect submission order: a batch of an earlier-submitted draw, or an
earlier-indexed batch of the same draw, always holds a strictly smaller
ticket. -/
theorem clusterPixelOrder (tr : List (Nat × Nat)) (h : fifoValid (fun _ => 0) tr)
    (c : Nat) (nbs : List Nat) (d1 b1 d2 b2 : Nat) (hd1 : d1 < nbs.length)
    (hb1 : b1 < nbs.get ⟨d1, hd1⟩)
    (horder : d1 < d2 ∨ (d1 = d2 ∧ b1 < b2)) :
    clusterTrace tr c = List.range (clusterTrace tr c).length ∧
    ticketOf nbs d1 b1 < ticketOf nbs d2 b2 := by
  constructor
  · rw [List.range_eq_range']
    exact fifoValid_clusterTrace tr (fun _ => 0) h c
  · have hstep : (nbs.take (d1 + 1)).sum = (nbs.take d1).sum + nbs.get ⟨d1, hd1⟩ := by
      rw [List.take_succ, List.sum_append]
      congr 1
      rw [List.getElem?_eq_getElem hd1]
      simp [List.get_eq_getElem]
    rcases horder with hlt | ⟨heq, hblt⟩
    · have hsplit : nbs.take d2 = nbs.take (d1 + 1) ++ (nbs.drop (d1 + 1)).take (d2 - (d1 + 1)) := by
        rw [← List.take_add]
        congr 1
        omega
      have hsum : (nbs.take d2).sum =
          (nbs.take (d1 + 1)).sum + ((nbs.drop (d1 + 1)).take (d2 - (d1 + 1))).sum := by
        rw [hsplit, List.sum_append]
      unfold ticketOf
      omega
    · subst heq
      unfold ticketOf
      omega

/-- C2 witness: the trace in which draw 0's batch 0 runs on clusters 0 and 1,
then draw 0's batch 1 runs on cluster 0, is FIFO-valid, its cluster-0 effects
appear in ticket order, and with batch counts `[2, 1]` the tickets of (draw 0,
batch 0) and (draw 1, batch 0) are ordered. -/
theorem clusterPixelOrder_witness :
    fifoValid (fun _ => 0) [(0, 0), (1, 0), (0, 1)] ∧
    clusterTrace [(0, 0), (1, 0), (0, 1)] 0 =
      List.range (clusterTrace [(0, 0), (1, 0), (0, 1)] 0).length ∧
    ticketOf [2, 1] 0 0 < ticketOf [2, 1] 1 0 := by
  have hv : fifoValid (fun _ => 0) [(0, 0), (1, 0), (0, 1)] :=
    ⟨rfl, rfl, rfl, trivial⟩
  have h := clusterPixelOrder [(0, 0), (1, 0), (0, 1)] hv 0 [2, 1] 0 0 1 0
    (by decide) (by decide) (Or.inl (by decide))
  exact ⟨hv, h.1, h.2⟩

end SwRenderer
